import Mathlib

/-!
# AmarcordDJ — verification of the core audio/control logic

Shallow embedding of the core of src/src/App.tsx of the AmarcordDJ
two-deck mixing application: the effects-chain builder (applyFilters,
ensureNodes, setEQ), the tempo controller (tapTempo, setTempo, syncTempo,
beat-snap in togglePlay), the MIDI dispatcher (onmidimessage) and the
recording controller (toggleRecord).  JavaScript numbers are modelled as
exact rationals; the arithmetic of every property below is exact, so no
floating-point rounding is involved in the statements.
-/

namespace AmarcordDJ

/-- JavaScript Math.round: half-up rounding, `⌊x + 1/2⌋`. -/
def jsRound (x : ℚ) : ℤ := ⌊x + 1 / 2⌋

/-- The two decks, `"A" | "B"` in the source. -/
inductive DeckId
  | A
  | B
deriving DecidableEq, Repr

/-- The four toggleable effects, `FxKey` in the source. -/
inductive FxKey
  | reverb
  | delay
  | filter
  | gate
deriving DecidableEq, Repr

/-! ## Tempo controller: tapTempo, setTempo, syncTempo -/

/-- The tempo-related React state: per-deck BPM estimates (nullable,
integral after Math.round), per-deck playback-rate multipliers
(`tempoA`/`tempoB`), and the single shared `lastTap` timestamp
(`useState(0)`, so `0` means "no tap recorded yet"). -/
structure TempoState where
  bpmA : Option ℤ
  bpmB : Option ℤ
  tempoA : ℚ
  tempoB : ℚ
  lastTap : ℚ
deriving DecidableEq, Repr

/-- Initial tempo state at startup: no BPM estimates, rate 1, no tap. -/
def initTempo : TempoState :=
  { bpmA := none, bpmB := none, tempoA := 1, tempoB := 1, lastTap := 0 }

/-- The BPM estimate of a deck. -/
def bpmOf (deck : DeckId) (st : TempoState) : Option ℤ :=
  match deck with
  | .A => st.bpmA
  | .B => st.bpmB

/-- The stored playback-rate multiplier of a deck. -/
def rateOf (deck : DeckId) (st : TempoState) : ℚ :=
  match deck with
  | .A => st.tempoA
  | .B => st.tempoB

/-- `tapTempo(deck)`: `now = performance.now()`; if `!lastTap` record the
timestamp and return; otherwise update `lastTap` to `now`, discard
intervals outside [250, 2000] ms, and else set the tapped deck's BPM to
`Math.round(60000 / interval)`. -/
def tapTempo (deck : DeckId) (now : ℚ) (st : TempoState) : TempoState :=
  if st.lastTap = 0 then
    { st with lastTap := now }
  else
    let interval := now - st.lastTap
    let st' := { st with lastTap := now }
    if interval < 250 ∨ interval > 2000 then st'
    else
      let bpm := jsRound (60000 / interval)
      match deck with
      | .A => { st' with bpmA := some bpm }
      | .B => { st' with bpmB := some bpm }

/-- `setTempo(deck, value)`: if the deck's wavesurfer instance is missing,
return; otherwise apply `value` as the playback rate (pitch preserved) and
store it.  The source applies the value as given, without clamping. -/
def setTempo (deck : DeckId) (value : ℚ) (hasWave : Bool) (st : TempoState) :
    TempoState :=
  if hasWave then
    match deck with
    | .A => { st with tempoA := value }
    | .B => { st with tempoB := value }
  else st

/-- `syncTempo(deck)`: the source deck is the *other* deck; no-op when
either BPM is falsy (null or 0); otherwise set this deck's rate to the
BPM quotient clamped to [0.6, 1.5] via `Math.min(1.5, Math.max(0.6, _))`. -/
def syncTempo (deck : DeckId) (hasWave : Bool) (st : TempoState) : TempoState :=
  let sourceBpm := match deck with | .A => st.bpmB | .B => st.bpmA
  let targetBpm := match deck with | .A => st.bpmA | .B => st.bpmB
  match sourceBpm, targetBpm with
  | some s, some t =>
    if s = 0 ∨ t = 0 then st
    else setTempo deck (min (3 / 2 : ℚ) (max (3 / 5 : ℚ) ((s : ℚ) / (t : ℚ)))) hasWave st
  | some _, none => st
  | none, _ => st

/-! ## Transport toggle with beat-snap -/

/-- The transport state of one wavesurfer instance: whether it is playing,
the current position (seconds) and the track duration (seconds). -/
structure WaveState where
  playing : Bool
  time : ℚ
  duration : ℚ
deriving DecidableEq, Repr

/-- `togglePlay(deck)` on an existing wavesurfer: when the deck is not
playing, beat-snap is enabled and the BPM estimate is truthy, snap the
position to `Math.round(t / beat) * beat` clamped by
`Math.max(0, Math.min(snapped, duration))` with `beat = 60 / bpm`;
then `playPause()`. -/
def togglePlay (beatSnap : Bool) (bpm : Option ℤ) (w : WaveState) : WaveState :=
  let w1 :=
    match bpm with
    | some b =>
      if w.playing = false ∧ beatSnap = true ∧ b ≠ 0 then
        let beat : ℚ := 60 / (b : ℚ)
        let snapped : ℚ := (jsRound (w.time / beat) : ℚ) * beat
        { w with time := max 0 (min snapped w.duration) }
      else w
    | none => w
  { w1 with playing := !w1.playing }

/-! ## Per-deck audio node cache and the effects chain

Each processing node carries a numeric handle id so that "the same node"
(handle identity, never recreated) is expressible; the remaining fields are
the audio parameters the source mutates.  The `eq` field of `DeckNodes` is
a JavaScript object keyed by filter type; `Object.values` enumerates it in
insertion order, so it is modelled as a list in insertion order with
distinct types. -/

/-- The three BiquadFilterType values used for EQ stages:
"lowshelf", "peaking", "highshelf". -/
inductive EqType
  | lowshelf
  | peaking
  | highshelf
deriving DecidableEq, Repr

/-- One EQ BiquadFilterNode: type-chosen fixed frequency and a gain (dB). -/
structure EqNode where
  id : ℕ
  eqType : EqType
  freq : ℚ
  gain : ℚ
deriving DecidableEq, Repr

/-- The resonant lowpass BiquadFilterNode. -/
structure FilterNode where
  id : ℕ
  freq : ℚ
  q : ℚ
deriving DecidableEq, Repr

/-- The DelayNode (delay time in seconds). -/
structure DelayNode where
  id : ℕ
  time : ℚ
deriving DecidableEq, Repr

/-- The feedback GainNode of the delay loop. -/
structure GainNode where
  id : ℕ
  gain : ℚ
deriving DecidableEq, Repr

/-- The ConvolverNode; `hasBuffer` records whether its impulse buffer is
set (`createImpulse` always produces one). -/
structure ReverbNode where
  id : ℕ
  hasBuffer : Bool
deriving DecidableEq, Repr

/-- The DynamicsCompressorNode used as a gate.  `ratioParam`, `attack` and
`release` model the source fields named ratio/attack/release. -/
structure GateNode where
  id : ℕ
  threshold : ℚ
  ratioParam : ℚ
  attack : ℚ
  release : ℚ
deriving DecidableEq, Repr

/-- `DeckNodes`: the per-deck cache of lazily created stage handles. -/
structure DeckNodes where
  eq : List EqNode
  filter : Option FilterNode
  delay : Option DelayNode
  delayFeedback : Option GainNode
  reverb : Option ReverbNode
  gate : Option GateNode
deriving DecidableEq, Repr

/-- Startup value `{ eq: {} }`: no nodes created yet. -/
def emptyNodes : DeckNodes :=
  { eq := [], filter := none, delay := none, delayFeedback := none,
    reverb := none, gate := none }

/-- `ensureNodes(deck, wave)` on the path where `backend.ac` exists:
create each missing singleton node with its creation-time parameters
(filter 8000 Hz / Q 0.6, delay 0.25 s with feedback gain 0.35, convolver
with a generated impulse, gate at −40 dB threshold).  `fresh` is the next
unused handle id. -/
def ensureNodes (nodes0 : DeckNodes) (fresh0 : ℕ) : DeckNodes × ℕ :=
  let p1 :=
    match nodes0.filter with
    | some _ => (nodes0, fresh0)
    | none =>
      ({ nodes0 with filter := some { id := fresh0, freq := 8000, q := 0.6 } },
        fresh0 + 1)
  let p2 :=
    match p1.1.delay with
    | some _ => p1
    | none =>
      ({ p1.1 with
          delay := some { id := p1.2, time := 0.25 },
          delayFeedback := some { id := p1.2 + 1, gain := 0.35 } },
        p1.2 + 2)
  let p3 :=
    match p2.1.reverb with
    | some _ => p2
    | none =>
      ({ p2.1 with reverb := some { id := p2.2, hasBuffer := true } }, p2.2 + 1)
  match p3.1.gate with
  | some _ => p3
  | none =>
    ({ p3.1 with
        gate := some { id := p3.2, threshold := -40, ratioParam := 12,
                        attack := 0.003, release := 0.2 } },
      p3.2 + 1)

/-- A stage in the realized chain (one entry of the `chain : AudioNode[]`
array handed to `wave.setFilters`). -/
inductive AudioNode
  | gate (n : GateNode)
  | eq (n : EqNode)
  | filter (n : FilterNode)
  | delay (n : DelayNode)
  | reverb (n : ReverbNode)
deriving DecidableEq, Repr

/-- The per-deck control state read by `applyFilters`: the four toggle
flags of `fxA`/`fxB`. -/
structure FxFlags where
  reverb : Bool
  delay : Bool
  filter : Bool
  gate : Bool
deriving DecidableEq, Repr

/-- The four wet amounts of `wetA`/`wetB`. -/
structure WetState where
  reverb : ℚ
  delay : ℚ
  filter : ℚ
  gate : ℚ
deriving DecidableEq, Repr

/-- `applyFilters(deck)` on the path where nodes exist: ensure the nodes,
then walk the fixed sequence — gate (threshold reparametrized, pushed when
enabled), every EQ node in `Object.values` order, resonant filter (cutoff
reparametrized, pushed when enabled), delay (time and feedback gain
reparametrized, delay pushed when enabled), reverb (pushed when enabled
and its buffer exists) — and hand the chain to `setFilters`.  Returns the
updated node cache, the next fresh id and the realized chain. -/
def applyFilters (fx : FxFlags) (wet : WetState) (nodes0 : DeckNodes)
    (fresh0 : ℕ) : DeckNodes × ℕ × List AudioNode :=
  let en := ensureNodes nodes0 fresh0
  let g1 :=
    match en.1.gate, fx.gate with
    | some g, true =>
      let g' := { g with threshold := -50 + wet.gate * 30 }
      ({ en.1 with gate := some g' }, [AudioNode.gate g'])
    | _, _ => (en.1, [])
  let seg2 := g1.1.eq.map AudioNode.eq
  let g3 :=
    match g1.1.filter, fx.filter with
    | some f, true =>
      let f' := { f with freq := 500 + wet.filter * 7500 }
      ({ g1.1 with filter := some f' }, [AudioNode.filter f'])
    | _, _ => (g1.1, [])
  let g4 :=
    match g3.1.delay, fx.delay with
    | some d, true =>
      let d' := { d with time := 0.05 + wet.delay * 0.45 }
      let n1 := { g3.1 with delay := some d' }
      let n2 :=
        match n1.delayFeedback with
        | some fb => { n1 with delayFeedback := some { fb with gain := 0.1 + wet.delay * 0.6 } }
        | none => n1
      (n2, [AudioNode.delay d'])
    | _, _ => (g3.1, [])
  let seg5 :=
    match g4.1.reverb, fx.reverb with
    | some r, true => if r.hasBuffer then [AudioNode.reverb r] else []
    | _, _ => []
  (g4.1, en.2, g1.2 ++ seg2 ++ g3.2 ++ g4.2 ++ seg5)

/-- `createEQFilter(type)`: a BiquadFilterNode with the fixed per-type
frequency (150 Hz lowshelf, 1000 Hz peaking, 6000 Hz highshelf), gain 0. -/
def createEQFilter (t : EqType) (id : ℕ) : EqNode :=
  { id := id, eqType := t,
    freq := match t with | .lowshelf => 150 | .highshelf => 6000 | .peaking => 1000,
    gain := 0 }

/-- Whether the EQ object already has a node under the given type key. -/
def eqHas (l : List EqNode) (t : EqType) : Bool :=
  l.any (fun n => n.eqType = t)

/-- `nodes.eq[type].gain.value = value`: mutate the gain of the existing
node of the given type in place (insertion order unchanged). -/
def eqSetGain (l : List EqNode) (t : EqType) (v : ℚ) : List EqNode :=
  match l with
  | [] => []
  | n :: rest =>
    if n.eqType = t then { n with gain := v } :: rest
    else n :: eqSetGain rest t v

/-- Full per-deck FX state: whether a wavesurfer with a live rendering
context exists, the control layer (`fx`, `wet`), the node cache, the next
fresh handle id, and the chain most recently handed to `setFilters`. -/
structure DeckFx where
  hasWave : Bool
  fx : FxFlags
  wet : WetState
  nodes : DeckNodes
  fresh : ℕ
  chain : List AudioNode
deriving DecidableEq, Repr

/-- Startup per-deck FX state: all effects off, the default wet amounts of
`wetA`/`wetB`, no nodes, empty chain. -/
def initDeckFx (hasWave : Bool) : DeckFx :=
  { hasWave := hasWave,
    fx := { reverb := false, delay := false, filter := false, gate := false },
    wet := { reverb := 0.35, delay := 0.25, filter := 0.5, gate := 0.5 },
    nodes := emptyNodes, fresh := 0, chain := [] }

/-- Flip one toggle flag, `{ ...prev, [key]: !prev[key] }`. -/
def FxFlags.toggle (f : FxFlags) : FxKey → FxFlags
  | .reverb => { f with reverb := !f.reverb }
  | .delay => { f with delay := !f.delay }
  | .filter => { f with filter := !f.filter }
  | .gate => { f with gate := !f.gate }

/-- Overwrite one wet amount, `{ ...prev, [key]: value }`. -/
def WetState.setKey (w : WetState) : FxKey → ℚ → WetState
  | .reverb, v => { w with reverb := v }
  | .delay, v => { w with delay := v }
  | .filter, v => { w with filter := v }
  | .gate, v => { w with gate := v }

/-- The control operations that reach the chain realization for one deck:
an effect toggle, a wet-amount change (each followed by the `useEffect`
that re-runs `applyFilters`), and `setEQ`. -/
inductive FxOp
  | toggleFx (k : FxKey)
  | setWet (k : FxKey) (v : ℚ)
  | setEQ (t : EqType) (v : ℚ)
deriving DecidableEq, Repr

/-- Run `applyFilters` against the current state: a retryable no-op when
no wavesurfer/rendering context exists, else recompute nodes and chain. -/
def realize (st : DeckFx) : DeckFx :=
  if st.hasWave then
    let r := applyFilters st.fx st.wet st.nodes st.fresh
    { st with nodes := r.1, fresh := r.2.1, chain := r.2.2 }
  else st

/-- One control operation followed by chain re-realization.  `setEQ`
first ensures the nodes, creates the typed EQ node on first use (gain set
to the new value) or mutates the existing node's gain, then re-realizes;
when no wavesurfer exists `setEQ` returns before touching anything. -/
def runOp (st : DeckFx) : FxOp → DeckFx
  | .toggleFx k => realize { st with fx := st.fx.toggle k }
  | .setWet k v => realize { st with wet := st.wet.setKey k v }
  | .setEQ t v =>
    if st.hasWave then
      let en := ensureNodes st.nodes st.fresh
      let st' :=
        if eqHas en.1.eq t then
          { st with nodes := { en.1 with eq := eqSetGain en.1.eq t v }, fresh := en.2 }
        else
          { st with
              nodes := { en.1 with eq := en.1.eq ++ [{ createEQFilter t en.2 with gain := v }] },
              fresh := en.2 + 1 }
      realize st'
    else st

/-- A history of control operations, run left to right. -/
def runOps (st : DeckFx) (ops : List FxOp) : DeckFx :=
  ops.foldl runOp st

/-! ## Chain shape: the normal form of a realized chain -/

/-- The shape every realized chain has: the gate stage when enabled, then
all EQ stages in the cache's insertion order, then the resonant filter,
the delay and the reverb, each present exactly when enabled (the reverb
additionally requires its impulse buffer); disabled effects are omitted
entirely. -/
def chainShape (fx : FxFlags) (n : DeckNodes) : List AudioNode :=
  (if fx.gate then (n.gate.map AudioNode.gate).toList else [])
    ++ n.eq.map AudioNode.eq
    ++ (if fx.filter then (n.filter.map AudioNode.filter).toList else [])
    ++ (if fx.delay then (n.delay.map AudioNode.delay).toList else [])
    ++ (if fx.reverb then
          (match n.reverb with
            | some r => if r.hasBuffer then [AudioNode.reverb r] else []
            | none => []) else [])

/-- Rank of a stage kind in the order claimed by the specification:
gate, then EQ low, mid, high, then filter, delay, reverb. -/
def specRank : AudioNode → ℕ
  | .gate _ => 0
  | .eq n => match n.eqType with | .lowshelf => 1 | .peaking => 2 | .highshelf => 3
  | .filter _ => 4
  | .delay _ => 5
  | .reverb _ => 6

/-- The ordering the claim asserts of every realized chain: stage ranks
(with the EQ stages ranked low < mid < high) never decrease. -/
def specOrdered (chain : List AudioNode) : Bool :=
  (chain.map specRank).Chain' (· ≤ ·)

/-- Rank of a stage kind with all EQ stages ranked equal (the order the
code actually guarantees: EQ stages appear in creation order). -/
def kindRank : AudioNode → ℕ
  | .gate _ => 0
  | .eq _ => 1
  | .filter _ => 2
  | .delay _ => 3
  | .reverb _ => 4

/-- First-occurrence order of the EQ types touched by a history of
operations, appended to an initial insertion order. -/
def eqTypesAfter (acc : List EqType) : List FxOp → List EqType
  | [] => acc
  | FxOp.setEQ t _ :: rest =>
    eqTypesAfter (if t ∈ acc then acc else acc ++ [t]) rest
  | FxOp.toggleFx _ :: rest => eqTypesAfter acc rest
  | FxOp.setWet _ _ :: rest => eqTypesAfter acc rest

/-! ## MIDI dispatcher -/

/-- The process-wide mapping of the 13 logical actions to codes 0–127. -/
structure MidiMap where
  deckAPlay : ℕ
  deckBPlay : ℕ
  crossfader : ℕ
  master : ℕ
  fxAReverb : ℕ
  fxADelay : ℕ
  fxAFilter : ℕ
  fxAGate : ℕ
  fxBReverb : ℕ
  fxBDelay : ℕ
  fxBFilter : ℕ
  fxBGate : ℕ
  recordToggle : ℕ
deriving DecidableEq, Repr

/-- `DEFAULT_MIDI`. -/
def DEFAULT_MIDI : MidiMap :=
  { deckAPlay := 60, deckBPlay := 62, crossfader := 1, master := 7,
    fxAReverb := 20, fxADelay := 21, fxAFilter := 22, fxAGate := 23,
    fxBReverb := 24, fxBDelay := 25, fxBFilter := 26, fxBGate := 27,
    recordToggle := 40 }

/-- The "Compact" entry of `DEFAULT_PRESETS`: `DEFAULT_MIDI` with the
eight effect toggles moved to 36–43 (`recordToggle` stays 40). -/
def compactMidi : MidiMap :=
  { DEFAULT_MIDI with
    fxAReverb := 36, fxADelay := 37, fxAFilter := 38, fxAGate := 39,
    fxBReverb := 40, fxBDelay := 41, fxBFilter := 42, fxBGate := 43 }

/-- A control action invoked by the dispatcher. -/
inductive ControlAction
  | togglePlay (d : DeckId)
  | toggleFx (d : DeckId) (k : FxKey)
  | toggleRecord
  | setCrossfader (v : ℤ)
  | setMaster (v : ℤ)
deriving DecidableEq, Repr

/-- The `onmidimessage` handler: messages shorter than 3 bytes are
ignored; `command = status & 0xF0`; note-on (0x90) with `data2 > 0` runs
the eleven independent code comparisons in source order; control-change
(0xB0) maps `data2` to `Math.round(data2 / 127 * 100)` for the
crossfader/master codes.  Returns the invoked actions in invocation
order. -/
def onmidimessage (m : MidiMap) (data : List ℕ) : List ControlAction :=
  match data with
  | status :: data1 :: data2 :: _ =>
    let command := status &&& 0xf0
    let noteActions :=
      if command = 0x90 ∧ data2 > 0 then
        (if data1 = m.deckAPlay then [ControlAction.togglePlay DeckId.A] else [])
          ++ (if data1 = m.deckBPlay then [ControlAction.togglePlay DeckId.B] else [])
          ++ (if data1 = m.fxAReverb then [ControlAction.toggleFx DeckId.A FxKey.reverb] else [])
          ++ (if data1 = m.fxADelay then [ControlAction.toggleFx DeckId.A FxKey.delay] else [])
          ++ (if data1 = m.fxAFilter then [ControlAction.toggleFx DeckId.A FxKey.filter] else [])
          ++ (if data1 = m.fxAGate then [ControlAction.toggleFx DeckId.A FxKey.gate] else [])
          ++ (if data1 = m.fxBReverb then [ControlAction.toggleFx DeckId.B FxKey.reverb] else [])
          ++ (if data1 = m.fxBDelay then [ControlAction.toggleFx DeckId.B FxKey.delay] else [])
          ++ (if data1 = m.fxBFilter then [ControlAction.toggleFx DeckId.B FxKey.filter] else [])
          ++ (if data1 = m.fxBGate then [ControlAction.toggleFx DeckId.B FxKey.gate] else [])
          ++ (if data1 = m.recordToggle then [ControlAction.toggleRecord] else [])
      else []
    let ccActions :=
      if command = 0xb0 then
        (if data1 = m.crossfader
          then [ControlAction.setCrossfader (jsRound ((data2 : ℚ) / 127 * 100))] else [])
          ++ (if data1 = m.master
            then [ControlAction.setMaster (jsRound ((data2 : ℚ) / 127 * 100))] else [])
      else []
    noteActions ++ ccActions
  | _ => []

/-- How many of the eleven note-on action slots map the given code. -/
def matchCount (m : MidiMap) (data1 : ℕ) : ℕ :=
  (if data1 = m.deckAPlay then 1 else 0)
    + (if data1 = m.deckBPlay then 1 else 0)
    + (if data1 = m.fxAReverb then 1 else 0)
    + (if data1 = m.fxADelay then 1 else 0)
    + (if data1 = m.fxAFilter then 1 else 0)
    + (if data1 = m.fxAGate then 1 else 0)
    + (if data1 = m.fxBReverb then 1 else 0)
    + (if data1 = m.fxBDelay then 1 else 0)
    + (if data1 = m.fxBFilter then 1 else 0)
    + (if data1 = m.fxBGate then 1 else 0)
    + (if data1 = m.recordToggle then 1 else 0)

/-! ## Recording controller -/

/-- The recording-related state: the exclusive flag, the installed
MediaRecorder handle, the accumulated chunk buffer and the exposed
download artifact. -/
structure RecState where
  recording : Bool
  recorder : Option ℕ
  chunks : List ℕ
  recordedUrl : Option ℕ
deriving DecidableEq, Repr

/-- Startup recording state. -/
def initRec : RecState :=
  { recording := false, recorder := none, chunks := [], recordedUrl := none }

/-- Environment of one `toggleRecord` call: whether a live rendering
context is reachable (`backend?.ac ?? audioCtxRef.current`), and whether
`ac.destination.connect(destination)` throws. -/
structure RecEnv where
  hasCtx : Bool
  connectFails : Bool
deriving DecidableEq, Repr

/-- `toggleRecord()`: no context — return unchanged; while recording —
stop (flushing happens in the recorder's callbacks); while idle — if the
master-output tap throws, return unchanged, else install a fresh recorder,
clear the chunk buffer and start. -/
def toggleRecord (env : RecEnv) (newRec : ℕ) (st : RecState) : RecState :=
  if env.hasCtx = false then st
  else if st.recording then { st with recording := false }
  else if env.connectFails then st
  else { st with recorder := some newRec, chunks := [], recording := true }

/-- The other deck. -/
def otherDeck : DeckId → DeckId
  | .A => .B
  | .B => .A

/-- The pure parameter-update part of `applyFilters`: reparametrize the
gate threshold, the filter cutoff, the delay time and the feedback gain of
each enabled-and-present stage, touching nothing else. -/
def updateParams (fx : FxFlags) (wet : WetState) (n : DeckNodes) : DeckNodes :=
  let n1 :=
    match n.gate, fx.gate with
    | some g, true => { n with gate := some { g with threshold := -50 + wet.gate * 30 } }
    | _, _ => n
  let n2 :=
    match n1.filter, fx.filter with
    | some f, true => { n1 with filter := some { f with freq := 500 + wet.filter * 7500 } }
    | _, _ => n1
  match n2.delay, fx.delay with
  | some d, true =>
    let n3 := { n2 with delay := some { d with time := 0.05 + wet.delay * 0.45 } }
    (match n3.delayFeedback with
      | some fb => { n3 with delayFeedback := some { fb with gain := 0.1 + wet.delay * 0.6 } }
      | none => n3)
  | _, _ => n2

/-! # Theorems -/

/-! ## Rounding helpers -/

theorem jsRound_le (x : ℚ) : (jsRound x : ℚ) ≤ x + 1 / 2 := by
  unfold jsRound
  exact_mod_cast Int.floor_le (x + 1 / 2)

theorem lt_jsRound_add_one (x : ℚ) : x + 1 / 2 < (jsRound x : ℚ) + 1 := by
  unfold jsRound
  exact_mod_cast Int.lt_floor_add_one (x + 1 / 2)

theorem abs_sub_jsRound_le (x : ℚ) : |x - (jsRound x : ℚ)| ≤ 1 / 2 := by
  have h1 := jsRound_le x
  have h2 := lt_jsRound_add_one x
  rw [abs_le]
  constructor <;> linarith

/-- `jsRound x` is a nearest integer to `x`. -/
theorem jsRound_nearest (x : ℚ) (j : ℤ) :
    |x - (jsRound x : ℚ)| ≤ |x - (j : ℚ)| := by
  have h1 := jsRound_le x
  have h2 := lt_jsRound_add_one x
  have habs := abs_sub_jsRound_le x
  rcases lt_trichotomy j (jsRound x) with hj | hj | hj
  · have hjq : (j : ℚ) + 1 ≤ (jsRound x : ℚ) := by exact_mod_cast Int.add_one_le_iff.mpr hj
    have hge : 1 / 2 ≤ x - (j : ℚ) := by linarith
    calc |x - (jsRound x : ℚ)| ≤ 1 / 2 := habs
      _ ≤ x - (j : ℚ) := hge
      _ ≤ |x - (j : ℚ)| := le_abs_self _
  · rw [hj]
  · have hjq : (jsRound x : ℚ) + 1 ≤ (j : ℚ) := by exact_mod_cast Int.add_one_le_iff.mpr hj
    have hge : 1 / 2 ≤ (j : ℚ) - x := by linarith
    calc |x - (jsRound x : ℚ)| ≤ 1 / 2 := habs
      _ ≤ (j : ℚ) - x := hge
      _ ≤ |x - (j : ℚ)| := by rw [abs_sub_comm]; exact le_abs_self _

/-! ## C3, C10: tap tempo -/

/-- C3: the first-ever tap (no recorded timestamp) only records its
timestamp and sets no BPM estimate; a later tap with interval outside
[250 ms, 2000 ms] is discarded — no BPM update — but the last-tap
timestamp is still updated; a tap with interval in [250 ms, 2000 ms] sets
the tapped deck's BPM to 60000/interval rounded to the nearest integer. -/
theorem tapTempo_spec (deck : DeckId) (now : ℚ) (st : TempoState) :
    (st.lastTap = 0 → tapTempo deck now st = { st with lastTap := now }) ∧
    (st.lastTap ≠ 0 → (now - st.lastTap < 250 ∨ now - st.lastTap > 2000) →
      tapTempo deck now st = { st with lastTap := now }) ∧
    (st.lastTap ≠ 0 → 250 ≤ now - st.lastTap → now - st.lastTap ≤ 2000 →
      tapTempo deck now st =
        (match deck with
          | .A => { st with lastTap := now, bpmA := some (jsRound (60000 / (now - st.lastTap))) }
          | .B => { st with lastTap := now, bpmB := some (jsRound (60000 / (now - st.lastTap))) })) := by
  refine ⟨fun h0 => by simp [tapTempo, h0], fun h0 hd => ?_, fun h0 h1 h2 => ?_⟩
  · simp only [tapTempo, if_neg h0, if_pos hd]
  · have hnd : ¬(now - st.lastTap < 250 ∨ now - st.lastTap > 2000) := by
      push_neg
      constructor <;> linarith
    cases deck <;> simp only [tapTempo, if_neg h0, if_neg hnd]

/-- C3 witness: two taps 500 ms apart set the tapped deck's BPM to 120,
updating the shared timestamp. -/
theorem tapTempo_spec_witness :
    tapTempo DeckId.A 1500 { initTempo with lastTap := 1000 } =
      { initTempo with lastTap := 1500, bpmA := some 120 } := by
  have h := (tapTempo_spec DeckId.A 1500 { initTempo with lastTap := 1000 }).2.2
    (by norm_num) (by norm_num) (by norm_num)
  rw [h]
  norm_num [jsRound, initTempo]

/-- C10: the tap-tempo timestamp is one shared value, not per-deck: every
tap on either deck overwrites it, and a tap on deck A followed by a tap on
deck B with a cross-deck interval in [250 ms, 2000 ms] sets deck B's BPM
from that cross-deck interval. -/
theorem tapTempo_sharedTimestamp (st : TempoState) (t1 t2 : ℚ) :
    (∀ deck now s, (tapTempo deck now s).lastTap = now) ∧
    (0 < t1 → 250 ≤ t2 - t1 → t2 - t1 ≤ 2000 →
      (tapTempo DeckId.B t2 (tapTempo DeckId.A t1 st)).bpmB
        = some (jsRound (60000 / (t2 - t1)))) := by
  have hlt : ∀ deck now s, (tapTempo deck now s).lastTap = now := by
    intro deck now s
    by_cases h : s.lastTap = 0
    · simp [tapTempo, h]
    · by_cases h2 : now - s.lastTap < 250 ∨ now - s.lastTap > 2000 <;>
        cases deck <;> simp [tapTempo, h, h2]
  refine ⟨hlt, fun hpos hlo hhi => ?_⟩
  set s1 := tapTempo DeckId.A t1 st with hs1
  have h1 : s1.lastTap = t1 := hlt _ _ _
  have hne : t1 ≠ 0 := by linarith
  have hnd : ¬(t2 - t1 < 250 ∨ t2 - t1 > 2000) := by
    push_neg
    constructor <;> linarith
  simp only [tapTempo, h1, if_neg hne, if_neg hnd]

/-- C10 witness: taps at 100 ms on deck A and 600 ms on deck B give deck B
a BPM of 120 from the cross-deck 500 ms interval. -/
theorem tapTempo_sharedTimestamp_witness :
    (tapTempo DeckId.B 600 (tapTempo DeckId.A 100 initTempo)).bpmB = some 120 := by
  have h := (tapTempo_sharedTimestamp initTempo 100 600).2
    (by norm_num) (by norm_num) (by norm_num)
  rw [h]
  norm_num [jsRound]

/-! ## C4: playback-rate set -/

/-- C4 counterexample: `setTempo` does not clamp — requesting rate 2 on
deck A stores 2, outside [0.6, 1.5]. -/
theorem setTempo_counterexample :
    (setTempo DeckId.A 2 true initTempo).tempoA = 2 ∧
      ¬(setTempo DeckId.A 2 true initTempo).tempoA ≤ 3 / 2 := by
  constructor
  · rfl
  · norm_num [setTempo, initTempo]

/-- C4 amended: `setTempo` stores the requested value unchanged, with no
clamping of its own; whenever the requested value already lies in
[0.6, 1.5] — as holds for every in-app caller (the tempo sliders are
bounded to [0.6, 1.5] and `syncTempo` clamps explicitly) — the stored
multiplier lies in [0.6, 1.5]. -/
theorem setTempo_spec (deck : DeckId) (v : ℚ) (st : TempoState) :
    rateOf deck (setTempo deck v true st) = v ∧
    (3 / 5 ≤ v → v ≤ 3 / 2 →
      3 / 5 ≤ rateOf deck (setTempo deck v true st) ∧
        rateOf deck (setTempo deck v true st) ≤ 3 / 2) := by
  cases deck <;> exact ⟨rfl, fun h1 h2 => ⟨h1, h2⟩⟩

/-- C4 witness: requesting rate 1.2 stores exactly 1.2, inside
[0.6, 1.5]. -/
theorem setTempo_spec_witness :
    rateOf DeckId.A (setTempo DeckId.A (6 / 5) true initTempo) = 6 / 5 ∧
      3 / 5 ≤ rateOf DeckId.A (setTempo DeckId.A (6 / 5) true initTempo) ∧
        rateOf DeckId.A (setTempo DeckId.A (6 / 5) true initTempo) ≤ 3 / 2 := by
  have h := setTempo_spec DeckId.A (6 / 5) initTempo
  exact ⟨h.1, h.2 (by norm_num) (by norm_num)⟩

/-! ## C6: sync -/

/-- C6: syncing a deck to the other deck sets its playback rate to
BPM(other)/BPM(self) clamped to [0.6, 1.5], and is a no-op when either
BPM estimate is null. -/
theorem syncTempo_spec (deck : DeckId) (hw : Bool) (st : TempoState) :
    (∀ s t : ℤ, bpmOf (otherDeck deck) st = some s → bpmOf deck st = some t →
      0 < s → 0 < t →
      rateOf deck (syncTempo deck true st)
        = min (3 / 2 : ℚ) (max (3 / 5 : ℚ) ((s : ℚ) / (t : ℚ)))) ∧
    ((bpmOf (otherDeck deck) st = none ∨ bpmOf deck st = none) →
      syncTempo deck hw st = st) := by
  constructor
  · intro s t hs ht hps hpt
    have hs0 : s ≠ 0 := by omega
    have ht0 : t ≠ 0 := by omega
    cases deck <;>
      simp_all [syncTempo, bpmOf, otherDeck, rateOf, setTempo]
  · intro h
    cases deck <;> cases hA : st.bpmA <;> cases hB : st.bpmB <;>
      simp_all [syncTempo, bpmOf, otherDeck]

/-- C6 witness: with BPM(A) = 120 and BPM(B) = 150, syncing deck B sets
its rate to 0.8; with both estimates null, syncing is a no-op. -/
theorem syncTempo_spec_witness :
    rateOf DeckId.B
        (syncTempo DeckId.B true { initTempo with bpmA := some 120, bpmB := some 150 })
      = 4 / 5 ∧
    syncTempo DeckId.B true initTempo = initTempo := by
  constructor
  · have h := (syncTempo_spec DeckId.B true
      { initTempo with bpmA := some 120, bpmB := some 150 }).1 120 150
      rfl rfl (by norm_num) (by norm_num)
    rw [h]
    norm_num
  · exact (syncTempo_spec DeckId.B true initTempo).2 (Or.inl rfl)

/-! ## C9: recording start failure -/

/-- C9: a record toggle while idle with no live rendering context, or
whose master-output tap fails, leaves the controller unchanged: the
recording flag stays false, no recorder is installed and the chunk buffer
is untouched. -/
theorem toggleRecord_idleFailure (env : RecEnv) (newRec : ℕ) (st : RecState)
    (hidle : st.recording = false)
    (hfail : env.hasCtx = false ∨ env.connectFails = true) :
    toggleRecord env newRec st = st := by
  rcases hfail with h | h <;> cases hc : env.hasCtx <;>
    simp_all [toggleRecord]

/-- C9 witness: toggling record from the startup state with a live context
but a failing master tap changes nothing. -/
theorem toggleRecord_idleFailure_witness :
    toggleRecord { hasCtx := true, connectFails := true } 7 initRec = initRec :=
  toggleRecord_idleFailure { hasCtx := true, connectFails := true } 7 initRec
    rfl (Or.inr rfl)

/-! ## C5: MIDI note-on dispatch -/

/-- C5 counterexample: in the shipped "Compact" preset the record toggle
and the deck-B reverb toggle share code 40, so one note-on with
`data1 = 40` and positive velocity invokes two actions, not exactly
one. -/
theorem onmidimessage_counterexample :
    compactMidi.recordToggle = 40 ∧ compactMidi.fxBReverb = 40 ∧
      onmidimessage compactMidi [144, 40, 100]
        = [ControlAction.toggleFx DeckId.B FxKey.reverb, ControlAction.toggleRecord] ∧
      (onmidimessage compactMidi [144, 40, 100]).length ≠ 1 := by
  refine ⟨rfl, rfl, rfl, by decide⟩

/-- C5 amended: a note-on message (command 0x90) with velocity 0 invokes
no action; with velocity 1–127 it invokes one action per logical-action
slot whose mapped code equals `data1` — exactly one action when exactly
one slot maps that code (as in the default map), but one per slot when
several slots share the code. -/
theorem onmidimessage_noteOn_spec (m : MidiMap) (status data1 data2 : ℕ)
    (rest : List ℕ) (hcmd : status &&& 0xf0 = 0x90) :
    (data2 = 0 → onmidimessage m (status :: data1 :: data2 :: rest) = []) ∧
    (1 ≤ data2 → data2 ≤ 127 →
      (onmidimessage m (status :: data1 :: data2 :: rest)).length
        = matchCount m data1) := by
  constructor
  · intro h0
    simp [onmidimessage, hcmd, h0]
  · intro h1 _
    have hpos : data2 > 0 := h1
    simp [onmidimessage, hcmd, hpos, matchCount, List.length_append,
      apply_ite List.length]
    ring

/-- C5 witness: on the default map, note-on code 60 velocity 1 invokes
exactly one action, and velocity 0 invokes none. -/
theorem onmidimessage_noteOn_spec_witness :
    (onmidimessage DEFAULT_MIDI [144, 60, 1]).length = 1 ∧
      onmidimessage DEFAULT_MIDI [144, 60, 0] = [] := by
  have h := onmidimessage_noteOn_spec DEFAULT_MIDI 144 60 1 [] rfl
  have h0 := onmidimessage_noteOn_spec DEFAULT_MIDI 144 60 0 [] rfl
  exact ⟨by rw [h.2 (by norm_num) (by norm_num)]; rfl, h0.1 rfl⟩

/-! ## C7: beat-snap on transport start -/

/-- C7: starting playback with beat-snap enabled and a known positive BPM
moves the position to `Math.round(t / beat) * beat` clamped to
[0, duration] with `beat = 60 / bpm`, and that target is a nearest
multiple of the beat length; with beat-snap disabled, an unknown BPM, or
the deck already playing (pausing), the position is not moved. -/
theorem togglePlay_beatSnap (beatSnap : Bool) (bpm : Option ℤ) (w : WaveState) :
    (∀ b : ℤ, w.playing = false → beatSnap = true → bpm = some b → 0 < b →
      (togglePlay beatSnap bpm w).time
          = max 0 (min ((jsRound (w.time / (60 / (b : ℚ))) : ℚ) * (60 / (b : ℚ)))
              w.duration)
        ∧ ∀ k : ℤ,
            |w.time - (jsRound (w.time / (60 / (b : ℚ))) : ℚ) * (60 / (b : ℚ))|
              ≤ |w.time - (k : ℚ) * (60 / (b : ℚ))|) ∧
    ((beatSnap = false ∨ bpm = none ∨ w.playing = true) →
      (togglePlay beatSnap bpm w).time = w.time) := by
  constructor
  · intro b hp hbs hbpm hbpos
    subst hbpm hbs
    have hb0 : b ≠ 0 := by omega
    have hbq : (0 : ℚ) < (b : ℚ) := by exact_mod_cast hbpos
    have hbeatpos : (0 : ℚ) < 60 / (b : ℚ) := by positivity
    have hbne : (60 / (b : ℚ)) ≠ 0 := ne_of_gt hbeatpos
    constructor
    · simp [togglePlay, hp, hb0]
    · intro k
      set beat : ℚ := 60 / (b : ℚ) with hbeat
      set r : ℤ := jsRound (w.time / beat) with hr
      have key := jsRound_nearest (w.time / beat) k
      have e1 : beat * (w.time / beat - (r : ℚ)) = w.time - (r : ℚ) * beat := by
        field_simp
        ring
      have e2 : beat * (w.time / beat - (k : ℚ)) = w.time - (k : ℚ) * beat := by
        field_simp
        ring
      calc |w.time - (r : ℚ) * beat|
          = |beat * (w.time / beat - (r : ℚ))| := by rw [e1]
        _ = beat * |w.time / beat - (r : ℚ)| := by
            rw [abs_mul, abs_of_pos hbeatpos]
        _ ≤ beat * |w.time / beat - (k : ℚ)| :=
            mul_le_mul_of_nonneg_left key (le_of_lt hbeatpos)
        _ = |beat * (w.time / beat - (k : ℚ))| := by
            rw [abs_mul, abs_of_pos hbeatpos]
        _ = |w.time - (k : ℚ) * beat| := by rw [e2]
  · intro h
    rcases h with h | h | h
    · subst h
      cases bpm <;> simp [togglePlay]
    · subst h
      simp [togglePlay]
    · cases bpm <;> simp [togglePlay, h]

/-- C7 witness: BPM 120 (beat 0.5 s) and position 1.23 s snap to 1.0 s on
start; with beat-snap disabled the position stays 1.23 s. -/
theorem togglePlay_beatSnap_witness :
    (togglePlay true (some 120)
        { playing := false, time := 123 / 100, duration := 10 }).time = 1 ∧
    (togglePlay false (some 120)
        { playing := false, time := 123 / 100, duration := 10 }).time = 123 / 100 := by
  constructor
  · have h := ((togglePlay_beatSnap true (some 120)
      { playing := false, time := 123 / 100, duration := 10 }).1
        120 rfl rfl rfl (by norm_num)).1
    rw [h]
    norm_num [jsRound]
  · exact (togglePlay_beatSnap false (some 120)
      { playing := false, time := 123 / 100, duration := 10 }).2 (Or.inl rfl)

/-! ## Chain realization: structural lemmas -/

theorem ensureNodes_eqList (n : DeckNodes) (f : ℕ) :
    (ensureNodes n f).1.eq = n.eq := by
  rcases n with ⟨eqL, fil, del, fb, rev, gat⟩
  cases fil <;> cases del <;> cases rev <;> cases gat <;> rfl

theorem ensureNodes_some (n : DeckNodes) (f : ℕ) :
    (ensureNodes n f).1.filter.isSome ∧ (ensureNodes n f).1.delay.isSome ∧
      (ensureNodes n f).1.reverb.isSome ∧ (ensureNodes n f).1.gate.isSome := by
  rcases n with ⟨eqL, fil, del, fb, rev, gat⟩
  cases fil <;> cases del <;> cases rev <;> cases gat <;> simp [ensureNodes]

theorem ensureNodes_feedback_some (n : DeckNodes) (f : ℕ)
    (h : n.delay = none ∨ n.delayFeedback.isSome) :
    (ensureNodes n f).1.delayFeedback.isSome := by
  rcases n with ⟨eqL, fil, del, fb, rev, gat⟩
  cases fil <;> cases del <;> cases fb <;> cases rev <;> cases gat <;>
    simp_all [ensureNodes]

theorem ensureNodes_preserve (n : DeckNodes) (f : ℕ) :
    (∀ x, n.filter = some x → (ensureNodes n f).1.filter = some x) ∧
    (∀ x, n.delay = some x → (ensureNodes n f).1.delay = some x) ∧
    (∀ x y, n.delay = some x → n.delayFeedback = some y →
      (ensureNodes n f).1.delayFeedback = some y) ∧
    (∀ x, n.reverb = some x → (ensureNodes n f).1.reverb = some x) ∧
    (∀ x, n.gate = some x → (ensureNodes n f).1.gate = some x) := by
  rcases n with ⟨eqL, fil, del, fb, rev, gat⟩
  cases fil <;> cases del <;> cases fb <;> cases rev <;> cases gat <;>
    simp [ensureNodes]

theorem ensureNodes_of_complete (n : DeckNodes) (f : ℕ)
    (h1 : n.filter.isSome) (h2 : n.delay.isSome)
    (h3 : n.reverb.isSome) (h4 : n.gate.isSome) :
    ensureNodes n f = (n, f) := by
  rcases n with ⟨eqL, fil, del, fb, rev, gat⟩
  cases fil <;> cases del <;> cases rev <;> cases gat <;>
    simp_all [ensureNodes]

/-- `applyFilters` in closed form: ensure the nodes, reparametrize the
enabled stages, and realize the chain in its fixed shape. -/
theorem applyFilters_eq (fx : FxFlags) (wet : WetState) (n : DeckNodes) (f : ℕ) :
    applyFilters fx wet n f
      = (updateParams fx wet (ensureNodes n f).1, (ensureNodes n f).2,
          chainShape fx (updateParams fx wet (ensureNodes n f).1)) := by
  rcases hEN : ensureNodes n f with ⟨⟨eqL, fil, del, fb, rev, gat⟩, fr⟩
  rcases fx with ⟨frev, fdel, ffil, fgat⟩
  simp only [applyFilters, hEN]
  cases fil <;> cases del <;> cases fb <;> cases gat <;>
    rcases rev with _ | ⟨rid, rbuf⟩ <;>
    cases frev <;> cases fdel <;> cases ffil <;> cases fgat <;> rfl

theorem updateParams_eqList (fx : FxFlags) (wet : WetState) (n : DeckNodes) :
    (updateParams fx wet n).eq = n.eq := by
  rcases fx with ⟨frev, fdel, ffil, fgat⟩
  rcases n with ⟨eqL, fil, del, fb, rev, gat⟩
  cases fil <;> cases del <;> cases fb <;> cases gat <;>
    cases fdel <;> cases ffil <;> cases fgat <;> rfl

theorem updateParams_some (fx : FxFlags) (wet : WetState) (n : DeckNodes) :
    (updateParams fx wet n).filter.isSome = n.filter.isSome ∧
    (updateParams fx wet n).delay.isSome = n.delay.isSome ∧
    (updateParams fx wet n).reverb = n.reverb ∧
    (updateParams fx wet n).gate.isSome = n.gate.isSome := by
  rcases fx with ⟨frev, fdel, ffil, fgat⟩
  rcases n with ⟨eqL, fil, del, fb, rev, gat⟩
  cases fil <;> cases del <;> cases fb <;> cases gat <;>
    cases fdel <;> cases ffil <;> cases fgat <;> simp [updateParams]

theorem updateParams_idem (fx : FxFlags) (wet : WetState) (n : DeckNodes) :
    updateParams fx wet (updateParams fx wet n) = updateParams fx wet n := by
  rcases fx with ⟨frev, fdel, ffil, fgat⟩
  rcases n with ⟨eqL, fil, del, fb, rev, gat⟩
  cases fil <;> cases del <;> cases fb <;> cases gat <;>
    cases fdel <;> cases ffil <;> cases fgat <;> rfl

theorem updateParams_ids (fx : FxFlags) (wet : WetState) (n : DeckNodes) :
    (∀ x, n.filter = some x →
      ∃ y, (updateParams fx wet n).filter = some y ∧ y.id = x.id) ∧
    (∀ x, n.delay = some x →
      ∃ y, (updateParams fx wet n).delay = some y ∧ y.id = x.id) ∧
    (∀ x, n.delayFeedback = some x →
      ∃ y, (updateParams fx wet n).delayFeedback = some y ∧ y.id = x.id) ∧
    (∀ x, n.gate = some x →
      ∃ y, (updateParams fx wet n).gate = some y ∧ y.id = x.id) := by
  rcases fx with ⟨frev, fdel, ffil, fgat⟩
  rcases n with ⟨eqL, fil, del, fb, rev, gat⟩
  cases fil <;> cases del <;> cases fb <;> cases gat <;>
    cases fdel <;> cases ffil <;> cases fgat <;> simp [updateParams]

/-! ## EQ object lemmas -/

theorem eqHas_iff (l : List EqNode) (t : EqType) :
    eqHas l t = true ↔ t ∈ l.map EqNode.eqType := by
  rw [eqHas, List.any_eq_true]
  rw [List.mem_map]
  constructor
  · rintro ⟨x, hx, hxt⟩
    exact ⟨x, hx, by simpa using hxt⟩
  · rintro ⟨x, hx, hxt⟩
    exact ⟨x, hx, by simpa using hxt⟩

theorem eqSetGain_idsTypes (l : List EqNode) (t : EqType) (v : ℚ) :
    (eqSetGain l t v).map (fun e => (e.id, e.eqType))
      = l.map (fun e => (e.id, e.eqType)) := by
  induction l with
  | nil => rfl
  | cons n rest ih =>
    by_cases h : n.eqType = t <;> simp [eqSetGain, h, ih]

theorem eqSetGain_types (l : List EqNode) (t : EqType) (v : ℚ) :
    (eqSetGain l t v).map EqNode.eqType = l.map EqNode.eqType := by
  have h := eqSetGain_idsTypes l t v
  have h2 := congrArg (List.map Prod.snd) h
  simpa [Function.comp] using h2

/-! ## Realization and operation lemmas -/

theorem realize_fields (st : DeckFx) (h : st.hasWave = true) :
    realize st
      = { st with
          nodes := updateParams st.fx st.wet (ensureNodes st.nodes st.fresh).1,
          fresh := (ensureNodes st.nodes st.fresh).2,
          chain := chainShape st.fx
            (updateParams st.fx st.wet (ensureNodes st.nodes st.fresh).1) } := by
  simp [realize, h, applyFilters_eq]

theorem realize_hasWave (st : DeckFx) : (realize st).hasWave = st.hasWave := by
  by_cases h : st.hasWave = true
  · rw [realize_fields st h]
  · simp [realize, h]

theorem realize_shape (st : DeckFx) (h : st.hasWave = true) :
    (realize st).chain = chainShape (realize st).fx (realize st).nodes := by
  rw [realize_fields st h]

theorem realize_eqList (st : DeckFx) : (realize st).nodes.eq = st.nodes.eq := by
  by_cases h : st.hasWave = true
  · rw [realize_fields st h]
    simp [updateParams_eqList, ensureNodes_eqList]
  · simp [realize, h]

theorem runOp_hasWave (st : DeckFx) (op : FxOp) :
    (runOp st op).hasWave = st.hasWave := by
  cases op with
  | toggleFx k => exact realize_hasWave _
  | setWet k v => exact realize_hasWave _
  | setEQ t v =>
    by_cases h : st.hasWave = true
    · simp only [runOp, h, if_true]
      split <;> rw [realize_hasWave]
    · simp [runOp, h]

theorem runOp_shape (st : DeckFx) (op : FxOp) (h : st.hasWave = true) :
    (runOp st op).chain = chainShape (runOp st op).fx (runOp st op).nodes := by
  cases op with
  | toggleFx k => exact realize_shape _ h
  | setWet k v => exact realize_shape _ h
  | setEQ t v =>
    simp only [runOp, h, if_true]
    split <;> exact realize_shape _ rfl

theorem runOp_eqTypes (st : DeckFx) (op : FxOp) (h : st.hasWave = true) :
    (runOp st op).nodes.eq.map EqNode.eqType
      = (match op with
          | FxOp.setEQ t _ =>
            if t ∈ st.nodes.eq.map EqNode.eqType
              then st.nodes.eq.map EqNode.eqType
              else st.nodes.eq.map EqNode.eqType ++ [t]
          | _ => st.nodes.eq.map EqNode.eqType) := by
  cases op with
  | toggleFx k => rw [runOp, realize_eqList]
  | setWet k v => rw [runOp, realize_eqList]
  | setEQ t v =>
    simp only [runOp, h, if_true]
    by_cases hmem : t ∈ st.nodes.eq.map EqNode.eqType
    · have hhas : eqHas (ensureNodes st.nodes st.fresh).1.eq t = true := by
        rw [ensureNodes_eqList, eqHas_iff]
        exact hmem
      simp only [hhas, if_true, if_pos hmem, realize_eqList]
      rw [eqSetGain_types, ensureNodes_eqList]
    · have hhas : ¬ eqHas (ensureNodes st.nodes st.fresh).1.eq t = true := by
        rw [ensureNodes_eqList, eqHas_iff]
        exact hmem
      simp only [hhas, if_false, if_neg hmem, realize_eqList]
      simp [ensureNodes_eqList, createEQFilter]

theorem runOps_shape (st : DeckFx) (ops : List FxOp) (h : st.hasWave = true)
    (h0 : st.chain = chainShape st.fx st.nodes) :
    (runOps st ops).chain
      = chainShape (runOps st ops).fx (runOps st ops).nodes := by
  induction ops generalizing st with
  | nil => exact h0
  | cons op rest ih =>
    have hw : (runOp st op).hasWave = true := by rw [runOp_hasWave, h]
    exact ih (runOp st op) hw (runOp_shape st op h)

theorem runOps_eqTypes (st : DeckFx) (ops : List FxOp) (h : st.hasWave = true) :
    (runOps st ops).nodes.eq.map EqNode.eqType
      = eqTypesAfter (st.nodes.eq.map EqNode.eqType) ops := by
  induction ops generalizing st with
  | nil => rfl
  | cons op rest ih =>
    have hw : (runOp st op).hasWave = true := by rw [runOp_hasWave, h]
    have hstep := runOp_eqTypes st op h
    cases op with
    | toggleFx k =>
      have := ih (runOp st (FxOp.toggleFx k)) hw
      rw [runOps, List.foldl_cons] at *
      rw [this, hstep, eqTypesAfter]
    | setWet k v =>
      have := ih (runOp st (FxOp.setWet k v)) hw
      rw [runOps, List.foldl_cons] at *
      rw [this, hstep, eqTypesAfter]
    | setEQ t v =>
      have := ih (runOp st (FxOp.setEQ t v)) hw
      rw [runOps, List.foldl_cons] at *
      rw [this, hstep, eqTypesAfter]

/-! ## Chain order lemmas -/

theorem pairwise_const_rank (r : ℕ) :
    ∀ l : List AudioNode, (∀ a ∈ l, kindRank a = r) →
      List.Pairwise (fun a b => kindRank a ≤ kindRank b) l := by
  intro l
  induction l with
  | nil => intro _; exact List.Pairwise.nil
  | cons x xs ih =>
    intro hl
    refine List.Pairwise.cons (fun b hb => ?_)
      (ih fun a ha => hl a (List.mem_cons_of_mem x ha))
    rw [hl x (List.mem_cons_self x xs), hl b (List.mem_cons_of_mem x hb)]

/-- Every realized chain is ordered by stage kind: gate stages before EQ
stages before the filter before the delay before the reverb. -/
theorem chainShape_pairwise (fx : FxFlags) (n : DeckNodes) :
    List.Pairwise (fun a b => kindRank a ≤ kindRank b) (chainShape fx n) := by
  have hb1 : ∀ a ∈ (if fx.gate then (n.gate.map AudioNode.gate).toList else []),
      kindRank a = 0 := by
    intro a ha
    split at ha
    · cases hg : n.gate with
      | none => rw [hg] at ha; simp at ha
      | some g =>
        rw [hg] at ha
        simp at ha
        subst ha
        rfl
    · simp at ha
  have hb2 : ∀ a ∈ n.eq.map AudioNode.eq, kindRank a = 1 := by
    intro a ha
    rcases List.mem_map.mp ha with ⟨x, _, rfl⟩
    rfl
  have hb3 : ∀ a ∈ (if fx.filter then (n.filter.map AudioNode.filter).toList else []),
      kindRank a = 2 := by
    intro a ha
    split at ha
    · cases hg : n.filter with
      | none => rw [hg] at ha; simp at ha
      | some g =>
        rw [hg] at ha
        simp at ha
        subst ha
        rfl
    · simp at ha
  have hb4 : ∀ a ∈ (if fx.delay then (n.delay.map AudioNode.delay).toList else []),
      kindRank a = 3 := by
    intro a ha
    split at ha
    · cases hg : n.delay with
      | none => rw [hg] at ha; simp at ha
      | some g =>
        rw [hg] at ha
        simp at ha
        subst ha
        rfl
    · simp at ha
  have hb5 : ∀ a ∈ (if fx.reverb then
      (match n.reverb with
        | some r => if r.hasBuffer then [AudioNode.reverb r] else []
        | none => []) else []), kindRank a = 4 := by
    intro a ha
    split at ha
    · cases hg : n.reverb with
      | none => rw [hg] at ha; simp at ha
      | some g =>
        rw [hg] at ha
        simp only [] at ha
        split at ha
        · simp at ha
          subst ha
          rfl
        · simp at ha
    · simp at ha
  unfold chainShape
  refine List.pairwise_append.mpr
    ⟨List.pairwise_append.mpr
      ⟨List.pairwise_append.mpr
        ⟨List.pairwise_append.mpr
          ⟨pairwise_const_rank 0 _ hb1, pairwise_const_rank 1 _ hb2, ?_⟩,
          pairwise_const_rank 2 _ hb3, ?_⟩,
        pairwise_const_rank 3 _ hb4, ?_⟩,
      pairwise_const_rank 4 _ hb5, ?_⟩
  · intro a ha b hb
    rw [hb1 a ha, hb2 b hb]
    omega
  · intro a ha b hb
    rcases List.mem_append.mp ha with h | h
    · rw [hb1 a h, hb3 b hb]; omega
    · rw [hb2 a h, hb3 b hb]; omega
  · intro a ha b hb
    rcases List.mem_append.mp ha with h | h
    · rcases List.mem_append.mp h with h' | h'
      · rw [hb1 a h', hb4 b hb]; omega
      · rw [hb2 a h', hb4 b hb]; omega
    · rw [hb3 a h, hb4 b hb]; omega
  · intro a ha b hb
    rcases List.mem_append.mp ha with h | h
    · rcases List.mem_append.mp h with h' | h'
      · rcases List.mem_append.mp h' with h'' | h''
        · rw [hb1 a h'', hb5 b hb]; omega
        · rw [hb2 a h'', hb5 b hb]; omega
      · rw [hb3 a h', hb5 b hb]; omega
    · rw [hb4 a h, hb5 b hb]; omega

/-! ## Parameter projection lemmas -/

theorem updateParams_filter_val (fx : FxFlags) (wet : WetState) (n : DeckNodes)
    (x : FilterNode) (hf : fx.filter = true) (hx : n.filter = some x) :
    (updateParams fx wet n).filter = some { x with freq := 500 + wet.filter * 7500 } := by
  rcases fx with ⟨frev, fdel, ffil, fgat⟩
  rcases n with ⟨eqL, fil, del, fb, rev, gat⟩
  cases fil <;> cases del <;> cases fb <;> cases gat <;>
    cases fdel <;> cases fgat <;> simp_all [updateParams]

theorem updateParams_delay_val (fx : FxFlags) (wet : WetState) (n : DeckNodes)
    (x : DelayNode) (hf : fx.delay = true) (hx : n.delay = some x) :
    (updateParams fx wet n).delay = some { x with time := 0.05 + wet.delay * 0.45 } := by
  rcases fx with ⟨frev, fdel, ffil, fgat⟩
  rcases n with ⟨eqL, fil, del, fb, rev, gat⟩
  cases fil <;> cases del <;> cases fb <;> cases gat <;>
    cases ffil <;> cases fgat <;> simp_all [updateParams]

theorem updateParams_feedback_val (fx : FxFlags) (wet : WetState) (n : DeckNodes)
    (x : GainNode) (hf : fx.delay = true) (hd : n.delay.isSome)
    (hx : n.delayFeedback = some x) :
    (updateParams fx wet n).delayFeedback
      = some { x with gain := 0.1 + wet.delay * 0.6 } := by
  rcases fx with ⟨frev, fdel, ffil, fgat⟩
  rcases n with ⟨eqL, fil, del, fb, rev, gat⟩
  cases fil <;> cases del <;> cases fb <;> cases gat <;>
    cases ffil <;> cases fgat <;> simp_all [updateParams]

theorem updateParams_gate_val (fx : FxFlags) (wet : WetState) (n : DeckNodes)
    (x : GateNode) (hf : fx.gate = true) (hx : n.gate = some x) :
    (updateParams fx wet n).gate = some { x with threshold := -50 + wet.gate * 30 } := by
  rcases fx with ⟨frev, fdel, ffil, fgat⟩
  rcases n with ⟨eqL, fil, del, fb, rev, gat⟩
  cases fil <;> cases del <;> cases fb <;> cases gat <;>
    cases ffil <;> cases fdel <;> simp_all [updateParams]

/-! ## Chain membership lemmas -/

theorem chainShape_mem_gate (fx : FxFlags) (n : DeckNodes) (x : GateNode)
    (hf : fx.gate = true) (hx : n.gate = some x) :
    AudioNode.gate x ∈ chainShape fx n := by
  unfold chainShape
  refine List.mem_append_left _ (List.mem_append_left _ (List.mem_append_left _
    (List.mem_append_left _ ?_)))
  simp [hf, hx]

theorem chainShape_mem_filter (fx : FxFlags) (n : DeckNodes) (x : FilterNode)
    (hf : fx.filter = true) (hx : n.filter = some x) :
    AudioNode.filter x ∈ chainShape fx n := by
  unfold chainShape
  refine List.mem_append_left _ (List.mem_append_left _ (List.mem_append_right _ ?_))
  simp [hf, hx]

theorem chainShape_mem_delay (fx : FxFlags) (n : DeckNodes) (x : DelayNode)
    (hf : fx.delay = true) (hx : n.delay = some x) :
    AudioNode.delay x ∈ chainShape fx n := by
  unfold chainShape
  refine List.mem_append_left _ (List.mem_append_right _ ?_)
  simp [hf, hx]

/-! ## C1: chain order -/

/-- C1 counterexample: adjusting the high EQ before the low EQ realizes a
chain whose EQ stages sit in [high, low] order — `Object.values` insertion
order — violating the claimed fixed low/mid/high ordering. -/
theorem chain_order_counterexample :
    (runOps (initDeckFx true)
        [FxOp.setEQ EqType.highshelf 3, FxOp.setEQ EqType.lowshelf 2]).chain.map specRank
      = [3, 1] ∧
    specOrdered (runOps (initDeckFx true)
        [FxOp.setEQ EqType.highshelf 3, FxOp.setEQ EqType.lowshelf 2]).chain = false := by
  have h1 : (runOps (initDeckFx true)
      [FxOp.setEQ EqType.highshelf 3, FxOp.setEQ EqType.lowshelf 2]).chain.map specRank
      = [3, 1] := rfl
  refine ⟨h1, ?_⟩
  unfold specOrdered
  rw [h1]
  rw [decide_eq_false_iff_not]
  simp [List.chain'_cons]

/-- C1 amended: for every history of effect-toggle, wet and EQ operations
(run against a live context), the realized chain always has the fixed
shape gate → EQ stages → filter → delay → reverb with every disabled
effect omitted entirely, and is ordered by stage kind independently of the
order in which effects were enabled; the EQ stages, however, appear in the
order in which their types were first touched (object insertion order),
not necessarily low/mid/high. -/
theorem chain_fixedOrder (ops : List FxOp) :
    ((runOps (initDeckFx true) ops).chain
        = chainShape (runOps (initDeckFx true) ops).fx
            (runOps (initDeckFx true) ops).nodes) ∧
    ((runOps (initDeckFx true) ops).nodes.eq.map EqNode.eqType
        = eqTypesAfter [] ops) ∧
    List.Pairwise (fun a b => kindRank a ≤ kindRank b)
      (runOps (initDeckFx true) ops).chain := by
  have h0 : (initDeckFx true).chain
      = chainShape (initDeckFx true).fx (initDeckFx true).nodes := rfl
  have hshape := runOps_shape (initDeckFx true) ops rfl h0
  refine ⟨hshape, ?_, ?_⟩
  · exact runOps_eqTypes (initDeckFx true) ops rfl
  · rw [hshape]
    exact chainShape_pairwise _ _

/-! ## C2: parameter mapping -/

/-- C2: for every wet amount in [0,1], the realized chain carries the
filter stage at cutoff 500 + wet·7500 Hz, the delay stage at time
0.05 + wet·0.45 s with feedback gain 0.10 + wet·0.60, and the gate stage
at threshold −50 + wet·30 dB, whenever the respective effect is enabled. -/
theorem applyFilters_paramMap (fx : FxFlags) (wet : WetState) (n : DeckNodes)
    (f : ℕ) (hpair : n.delay = none ∨ n.delayFeedback.isSome)
    (_hf0 : 0 ≤ wet.filter) (_hf1 : wet.filter ≤ 1)
    (_hd0 : 0 ≤ wet.delay) (_hd1 : wet.delay ≤ 1)
    (_hg0 : 0 ≤ wet.gate) (_hg1 : wet.gate ≤ 1) :
    (fx.filter = true → ∃ fn : FilterNode,
        AudioNode.filter fn ∈ (applyFilters fx wet n f).2.2 ∧
          fn.freq = 500 + wet.filter * 7500) ∧
    (fx.delay = true → ∃ dn : DelayNode,
        AudioNode.delay dn ∈ (applyFilters fx wet n f).2.2 ∧
          dn.time = 0.05 + wet.delay * 0.45) ∧
    (fx.delay = true → ∃ fb : GainNode,
        (applyFilters fx wet n f).1.delayFeedback = some fb ∧
          fb.gain = 0.1 + wet.delay * 0.6) ∧
    (fx.gate = true → ∃ g : GateNode,
        AudioNode.gate g ∈ (applyFilters fx wet n f).2.2 ∧
          g.threshold = -50 + wet.gate * 30) := by
  obtain ⟨hfs, hds, hrs, hgs⟩ := ensureNodes_some n f
  obtain ⟨fil, hfil⟩ := Option.isSome_iff_exists.mp hfs
  obtain ⟨del, hdel⟩ := Option.isSome_iff_exists.mp hds
  obtain ⟨gat, hgat⟩ := Option.isSome_iff_exists.mp hgs
  obtain ⟨fb, hfb⟩ := Option.isSome_iff_exists.mp (ensureNodes_feedback_some n f hpair)
  rw [applyFilters_eq]
  refine ⟨fun hff => ?_, fun hfd => ?_, fun hfd => ?_, fun hfg => ?_⟩
  · exact ⟨{ fil with freq := 500 + wet.filter * 7500 },
      chainShape_mem_filter _ _ _ hff (updateParams_filter_val fx wet _ fil hff hfil),
      rfl⟩
  · exact ⟨{ del with time := 0.05 + wet.delay * 0.45 },
      chainShape_mem_delay _ _ _ hfd (updateParams_delay_val fx wet _ del hfd hdel),
      rfl⟩
  · exact ⟨{ fb with gain := 0.1 + wet.delay * 0.6 },
      updateParams_feedback_val fx wet _ fb hfd hds hfb, rfl⟩
  · exact ⟨{ gat with threshold := -50 + wet.gate * 30 },
      chainShape_mem_gate _ _ _ hfg (updateParams_gate_val fx wet _ gat hfg hgat),
      rfl⟩

/-- C2 witness: with every effect on and all wet amounts at 0.5, the
realized chain from a fresh node cache carries the filter at 4250 Hz, the
delay at 0.275 s with feedback 0.40, and the gate at −35 dB. -/
theorem applyFilters_paramMap_witness :
    (∃ fn : FilterNode,
      AudioNode.filter fn ∈ (applyFilters
        { reverb := true, delay := true, filter := true, gate := true }
        { reverb := 1/2, delay := 1/2, filter := 1/2, gate := 1/2 }
        emptyNodes 0).2.2 ∧ fn.freq = 4250) ∧
    (∃ g : GateNode,
      AudioNode.gate g ∈ (applyFilters
        { reverb := true, delay := true, filter := true, gate := true }
        { reverb := 1/2, delay := 1/2, filter := 1/2, gate := 1/2 }
        emptyNodes 0).2.2 ∧ g.threshold = -35) := by
  have h := applyFilters_paramMap
    { reverb := true, delay := true, filter := true, gate := true }
    { reverb := 1/2, delay := 1/2, filter := 1/2, gate := 1/2 }
    emptyNodes 0 (Or.inl rfl)
    (by norm_num) (by norm_num) (by norm_num) (by norm_num) (by norm_num) (by norm_num)
  obtain ⟨fn, hfn, hfreq⟩ := h.1 rfl
  obtain ⟨g, hg, hth⟩ := h.2.2.2 rfl
  refine ⟨⟨fn, hfn, by rw [hfreq]; norm_num⟩, ⟨g, hg, by rw [hth]; norm_num⟩⟩

/-! ## C8: handle stability and idempotence -/

/-- C8: once created, stage handles are never recreated: `ensureNodes`
returns every existing handle unchanged, `applyFilters` only
reparametrizes (every handle id survives, the reverb and the EQ list are
untouched), `setEQ`'s gain update preserves every EQ handle id and type,
and a second `applyFilters` with unchanged FxState returns the identical
node set, fresh counter and chain. -/
theorem handles_stable (fx : FxFlags) (wet : WetState) (n : DeckNodes) (f : ℕ)
    (t : EqType) (v : ℚ) :
    ((∀ x, n.filter = some x → (ensureNodes n f).1.filter = some x) ∧
     (∀ x, n.delay = some x → (ensureNodes n f).1.delay = some x) ∧
     (∀ x y, n.delay = some x → n.delayFeedback = some y →
       (ensureNodes n f).1.delayFeedback = some y) ∧
     (∀ x, n.reverb = some x → (ensureNodes n f).1.reverb = some x) ∧
     (∀ x, n.gate = some x → (ensureNodes n f).1.gate = some x) ∧
     (ensureNodes n f).1.eq = n.eq) ∧
    ((∀ x, n.filter = some x →
        ∃ y, (applyFilters fx wet n f).1.filter = some y ∧ y.id = x.id) ∧
     (∀ x, n.delay = some x →
        ∃ y, (applyFilters fx wet n f).1.delay = some y ∧ y.id = x.id) ∧
     (∀ x, n.reverb = some x → (applyFilters fx wet n f).1.reverb = some x) ∧
     (∀ x, n.gate = some x →
        ∃ y, (applyFilters fx wet n f).1.gate = some y ∧ y.id = x.id) ∧
     (applyFilters fx wet n f).1.eq = n.eq) ∧
    ((eqSetGain n.eq t v).map (fun e => (e.id, e.eqType))
        = n.eq.map (fun e => (e.id, e.eqType))) ∧
    (applyFilters fx wet (applyFilters fx wet n f).1 (applyFilters fx wet n f).2.1
        = applyFilters fx wet n f) := by
  obtain ⟨p1, p2, p3, p4, p5⟩ := ensureNodes_preserve n f
  obtain ⟨u1, u2, u3, u4⟩ := updateParams_ids fx wet (ensureNodes n f).1
  have hups := updateParams_some fx wet (ensureNodes n f).1
  refine ⟨⟨p1, p2, p3, p4, p5, ensureNodes_eqList n f⟩, ⟨?_, ?_, ?_, ?_, ?_⟩,
    eqSetGain_idsTypes n.eq t v, ?_⟩
  · intro x hx
    rw [applyFilters_eq]
    exact u1 x (p1 x hx)
  · intro x hx
    rw [applyFilters_eq]
    exact u2 x (p2 x hx)
  · intro x hx
    rw [applyFilters_eq]
    rw [hups.2.2.1]
    exact p4 x hx
  · intro x hx
    rw [applyFilters_eq]
    exact u4 x (p5 x hx)
  · rw [applyFilters_eq]
    rw [updateParams_eqList, ensureNodes_eqList]
  · have hsome := ensureNodes_some n f
    have hcomp : ensureNodes (updateParams fx wet (ensureNodes n f).1) (ensureNodes n f).2
        = (updateParams fx wet (ensureNodes n f).1, (ensureNodes n f).2) := by
      apply ensureNodes_of_complete
      · rw [hups.1]; exact hsome.1
      · rw [hups.2.1]; exact hsome.2.1
      · rw [hups.2.2.1]
        exact hsome.2.2.1
      · rw [hups.2.2.2]; exact hsome.2.2.2
    rw [applyFilters_eq fx wet n f]
    rw [applyFilters_eq fx wet _ _]
    rw [hcomp, updateParams_idem]

/-- C8 witness: with a fully created node cache, `ensureNodes` returns the
existing filter handle unchanged, and a second `applyFilters` with
unchanged FxState returns the identical result. -/
theorem handles_stable_witness :
    ((ensureNodes
        { eq := [], filter := some { id := 0, freq := 8000, q := 0.6 },
          delay := some { id := 1, time := 0.25 },
          delayFeedback := some { id := 2, gain := 0.35 },
          reverb := some { id := 3, hasBuffer := true },
          gate := some { id := 4, threshold := -40, ratioParam := 12,
                          attack := 0.003, release := 0.2 } } 5).1.filter
      = some { id := 0, freq := 8000, q := 0.6 }) ∧
    (applyFilters { reverb := true, delay := true, filter := true, gate := true }
        { reverb := 1/2, delay := 1/2, filter := 1/2, gate := 1/2 }
        (applyFilters { reverb := true, delay := true, filter := true, gate := true }
          { reverb := 1/2, delay := 1/2, filter := 1/2, gate := 1/2 } emptyNodes 0).1
        (applyFilters { reverb := true, delay := true, filter := true, gate := true }
          { reverb := 1/2, delay := 1/2, filter := 1/2, gate := 1/2 } emptyNodes 0).2.1
      = applyFilters { reverb := true, delay := true, filter := true, gate := true }
          { reverb := 1/2, delay := 1/2, filter := 1/2, gate := 1/2 } emptyNodes 0) := by
  constructor
  · exact (handles_stable
      { reverb := true, delay := true, filter := true, gate := true }
      { reverb := 1/2, delay := 1/2, filter := 1/2, gate := 1/2 }
      { eq := [], filter := some { id := 0, freq := 8000, q := 0.6 },
        delay := some { id := 1, time := 0.25 },
        delayFeedback := some { id := 2, gain := 0.35 },
        reverb := some { id := 3, hasBuffer := true },
        gate := some { id := 4, threshold := -40, ratioParam := 12,
                        attack := 0.003, release := 0.2 } } 5
      EqType.lowshelf 0).1.1 _ rfl
  · exact (handles_stable
      { reverb := true, delay := true, filter := true, gate := true }
      { reverb := 1/2, delay := 1/2, filter := 1/2, gate := 1/2 }
      emptyNodes 0 EqType.lowshelf 0).2.2.2

end AmarcordDJ
